import Mathlib

/-!
Verification of the complex-valued ResNet topology builders of
`complex_networks_keras_tf1` (files `models/resnet_blocks_3d.py` and
`models/resnet_models_2d.py`).

The graph-construction code is shallowly embedded: Python strings become
lists of codepoints (`List Nat`), keras tensors become a tensor-expression
type `T`, and each builder returns the output expression together with the
list of layer names it creates, in creation order.  The 2D block builders
(`resnet_blocks_2d.py`) are not part of the sources; the block-builder
logic is taken from `resnet_blocks_3d.py`, which the repository documents
as the same residual-block construction (same names, strides and wiring).
-/

/-- Codepoints of a string literal; the embedding of Python `str` values. -/
def strCodes (s : String) : List Nat := s.data.map (fun c => c.toNat)

/-- Little-endian decimal digit codepoints of `n`, with fuel (the embedding of
repeated divmod by 10 as done by Python's `str`). -/
def decimalAux : Nat → Nat → List Nat
  | 0, _ => []
  | _ + 1, 0 => []
  | fuel + 1, n + 1 => ((n + 1) % 10 + 48) :: decimalAux fuel ((n + 1) / 10)

/-- Codepoints of Python `str(n)` for a natural number `n`. -/
def decimalCodes (n : Nat) : List Nat :=
  if n = 0 then [48] else (decimalAux n n).reverse

/-- Python `s.startswith(p)` on codepoint lists. -/
def startsWith (s p : List Nat) : Bool := s.take p.length == p

/-- Layer kinds used by the two source files. -/
inductive LKind where
  | zeroPadding3D
  | complexConv3D
  | complexBatchNorm
  | activationLayer
  | complexConv2D
  | complexMaxPooling2D
  | complexAveragePooling2D
  | spectralPooling2D
  | globalAveragePooling2D
  | flattenLayer
  | denseLayer
  | complexDenseLayer
deriving DecidableEq, Repr

/-- Configuration of one created layer: kind, name (codepoints), filter count,
stride, kernel size and activation string (for activation/dense layers). -/
structure LayerCfg where
  kind : LKind
  lname : List Nat
  filters : Nat
  stride : Nat
  ksize : Nat
  activ : List Nat
deriving DecidableEq, Repr

/-- Tensor expressions: the input placeholder, a layer applied to a tensor, or
a `keras.layers.add` of two tensors (with its layer name). -/
inductive T where
  | input : T
  | app : LayerCfg → T → T
  | add : List Nat → T → T → T
deriving DecidableEq, Repr

/-- Shortcut branch of a residual block output: the block output has the form
`activation (add name main shortcut)`; this extracts `shortcut`. -/
def shortcutOf : T → Option T
  | T.app _ (T.add _ _ s) => some s
  | _ => none

/-- Stride resolution of `basic_3d` / `bottleneck_3d`
(`resnet_blocks_3d.py` lines 53-57 and 136-140): an explicit stride wins;
otherwise stride is 1 if `block != 0 or stage == 0`, else 2. -/
def resolveStride (stride : Option Nat) (stage block : Nat) : Nat :=
  match stride with
  | some s => s
  | none => if block ≠ 0 ∨ stage = 0 then 1 else 2

/-- Block-character naming of `basic_3d` / `bottleneck_3d`
(`resnet_blocks_3d.py` lines 61-64): `"b{block}"` when `block > 0` and
`numerical_name`, else `chr(ord('a') + block)`. -/
def blockChar (block : Nat) (numerical_name : Bool) : List Nat :=
  if 0 < block ∧ numerical_name = true then 98 :: decimalCodes block
  else [97 + block]

/-- Stage/block name prefix `f'{stage_char}{block_char}'` with
`stage_char = str(stage + 2)`. -/
def pfxOf (stage block : Nat) (numerical_name : Bool) : List Nat :=
  decimalCodes (stage + 2) ++ blockChar block numerical_name

/-- Embedding of `basic_3d` (`resnet_blocks_3d.py` lines 20-99).  Returns the
output tensor expression and the names of the layers created, in creation
order. -/
def basic_3d (filters stage block kernel_size : Nat) (numerical_name : Bool)
    (stride? : Option Nat) (activation : List Nat) (inputs : T) :
    T × List (List Nat) :=
  let stride := resolveStride stride? stage block
  let pfx := pfxOf stage block numerical_name
  let name_pad2a := strCodes "padding" ++ pfx ++ strCodes "_branch2a"
  let t1 := T.app (LayerCfg.mk LKind.zeroPadding3D name_pad2a 0 1 0 []) inputs
  let name_conv2a := strCodes "res" ++ pfx ++ strCodes "_branch2a"
  let t2 := T.app (LayerCfg.mk LKind.complexConv3D name_conv2a filters stride kernel_size []) t1
  let name_bn2a := strCodes "bn" ++ pfx ++ strCodes "_branch2a"
  let t3 := T.app (LayerCfg.mk LKind.complexBatchNorm name_bn2a 0 1 0 []) t2
  let name_act2a := strCodes "res" ++ pfx ++ strCodes "_branch2a_" ++ activation
  let t4 := T.app (LayerCfg.mk LKind.activationLayer name_act2a 0 1 0 activation) t3
  let name_pad2b := strCodes "padding" ++ pfx ++ strCodes "_branch2b"
  let t5 := T.app (LayerCfg.mk LKind.zeroPadding3D name_pad2b 0 1 0 []) t4
  let name_conv2b := strCodes "res" ++ pfx ++ strCodes "_branch2b"
  let t6 := T.app (LayerCfg.mk LKind.complexConv3D name_conv2b filters 1 kernel_size []) t5
  let name_bn2b := strCodes "bn" ++ pfx ++ strCodes "_branch2b"
  let t7 := T.app (LayerCfg.mk LKind.complexBatchNorm name_bn2b 0 1 0 []) t6
  let shortcut : T × List (List Nat) :=
    if block = 0 then
      (T.app (LayerCfg.mk LKind.complexBatchNorm (strCodes "bn" ++ pfx ++ strCodes "_branch1") 0 1 0 [])
        (T.app (LayerCfg.mk LKind.complexConv3D (strCodes "res" ++ pfx ++ strCodes "_branch1") filters stride 1 []) inputs),
       [strCodes "res" ++ pfx ++ strCodes "_branch1", strCodes "bn" ++ pfx ++ strCodes "_branch1"])
    else (inputs, [])
  let name_add := strCodes "res" ++ pfx
  let t8 := T.add name_add t7 shortcut.1
  let name_act := strCodes "res" ++ pfx ++ strCodes "_" ++ activation
  let t9 := T.app (LayerCfg.mk LKind.activationLayer name_act 0 1 0 activation) t8
  (t9, [name_pad2a, name_conv2a, name_bn2a, name_act2a, name_pad2b, name_conv2b, name_bn2b]
        ++ shortcut.2 ++ [name_add, name_act])

/-- Embedding of `bottleneck_3d` (`resnet_blocks_3d.py` lines 102-187). -/
def bottleneck_3d (filters stage block kernel_size : Nat) (numerical_name : Bool)
    (stride? : Option Nat) (activation : List Nat) (inputs : T) :
    T × List (List Nat) :=
  let stride := resolveStride stride? stage block
  let pfx := pfxOf stage block numerical_name
  let name_conv2a := strCodes "res" ++ pfx ++ strCodes "_branch2a"
  let t1 := T.app (LayerCfg.mk LKind.complexConv3D name_conv2a filters stride 1 []) inputs
  let name_bn2a := strCodes "bn" ++ pfx ++ strCodes "_branch2a"
  let t2 := T.app (LayerCfg.mk LKind.complexBatchNorm name_bn2a 0 1 0 []) t1
  let name_act2a := strCodes "res" ++ pfx ++ strCodes "_branch2a_" ++ activation
  let t3 := T.app (LayerCfg.mk LKind.activationLayer name_act2a 0 1 0 activation) t2
  let name_pad2b := strCodes "padding" ++ pfx ++ strCodes "_branch2b"
  let t4 := T.app (LayerCfg.mk LKind.zeroPadding3D name_pad2b 0 1 0 []) t3
  let name_conv2b := strCodes "res" ++ pfx ++ strCodes "_branch2b"
  let t5 := T.app (LayerCfg.mk LKind.complexConv3D name_conv2b filters 1 kernel_size []) t4
  let name_bn2b := strCodes "bn" ++ pfx ++ strCodes "_branch2b"
  let t6 := T.app (LayerCfg.mk LKind.complexBatchNorm name_bn2b 0 1 0 []) t5
  let name_act2b := strCodes "res" ++ pfx ++ strCodes "_branch2b_" ++ activation
  let t7 := T.app (LayerCfg.mk LKind.activationLayer name_act2b 0 1 0 activation) t6
  let name_conv2c := strCodes "res" ++ pfx ++ strCodes "_branch2c"
  let t8 := T.app (LayerCfg.mk LKind.complexConv3D name_conv2c (filters * 4) 1 1 []) t7
  let name_bn2c := strCodes "bn" ++ pfx ++ strCodes "_branch2c"
  let t9 := T.app (LayerCfg.mk LKind.complexBatchNorm name_bn2c 0 1 0 []) t8
  let shortcut : T × List (List Nat) :=
    if block = 0 then
      (T.app (LayerCfg.mk LKind.complexBatchNorm (strCodes "bn" ++ pfx ++ strCodes "_branch1") 0 1 0 [])
        (T.app (LayerCfg.mk LKind.complexConv3D (strCodes "res" ++ pfx ++ strCodes "_branch1") (filters * 4) stride 1 []) inputs),
       [strCodes "res" ++ pfx ++ strCodes "_branch1", strCodes "bn" ++ pfx ++ strCodes "_branch1"])
    else (inputs, [])
  let name_add := strCodes "res" ++ pfx
  let t10 := T.add name_add t9 shortcut.1
  let name_act := strCodes "res" ++ pfx ++ strCodes "_" ++ activation
  let t11 := T.app (LayerCfg.mk LKind.activationLayer name_act 0 1 0 activation) t10
  (t11, [name_conv2a, name_bn2a, name_act2a, name_pad2b, name_conv2b, name_bn2b, name_act2b,
         name_conv2c, name_bn2c]
        ++ shortcut.2 ++ [name_add, name_act])

/-- Choice of residual block builder (`block_func` argument of `ResNet2D`). -/
inductive BlockKind where
  | basic
  | bottleneck
deriving DecidableEq, Repr

/-- One `block_func(n_filters, stage_id, block_id, numerical_name=..., activation=...)`
invocation of the assembler (kernel size and stride take their defaults). -/
def runBlock (bk : BlockKind) (filters stage block : Nat) (numerical_name : Bool)
    (activation : List Nat) (x : T) : T × List (List Nat) :=
  match bk with
  | BlockKind.basic => basic_3d filters stage block 3 numerical_name none activation x
  | BlockKind.bottleneck => bottleneck_3d filters stage block 3 numerical_name none activation x

/-- Result of the inner block loop: current tensor, created layer names, and
the `(filters, stage, block)` argument triples of the block-builder calls. -/
structure LoopRes where
  x : T
  names : List (List Nat)
  calls : List (Nat × Nat × Nat)
deriving DecidableEq, Repr

/-- The inner loop `for block_id in range(iterations)` of `ResNet2D.__init__`
(`resnet_models_2d.py` lines 90-97); `block` is the next block id and the
second numeral the remaining iteration count. -/
def blocksLoop (bk : BlockKind) (activation : List Nat) (filters stage : Nat)
    (flag : Bool) : Nat → Nat → T → LoopRes
  | _, 0, x => LoopRes.mk x [] []
  | block, r + 1, x =>
    let step := runBlock bk filters stage block (decide (0 < block) && flag) activation x
    let rest := blocksLoop bk activation filters stage flag (block + 1) r step.1
    LoopRes.mk rest.x (step.2 ++ rest.names) ((filters, stage, block) :: rest.calls)

/-- Result of the stage loop: current tensor, per-stage outputs, names, calls. -/
structure StagesRes where
  x : T
  outs : List T
  names : List (List Nat)
  calls : List (Nat × Nat × Nat)
deriving DecidableEq, Repr

/-- The outer loop `for stage_id, iterations in enumerate(num_blocks)` of
`ResNet2D.__init__` (`resnet_models_2d.py` lines 89-101): runs the blocks of
each remaining stage, doubles the filter count after each stage, and records
each stage's final tensor. -/
def stagesLoop (bk : BlockKind) (activation : List Nat) :
    List Nat → List Bool → Nat → Nat → T → StagesRes
  | [], _, _, _, x => StagesRes.mk x [] [] []
  | iterations :: rest, nns, filters, stage, x =>
    let st := blocksLoop bk activation filters stage (nns.getD stage false) 0 iterations x
    let more := stagesLoop bk activation rest nns (filters * 2) (stage + 1) st.x
    StagesRes.mk more.x (st.x :: more.outs) (st.names ++ more.names) (st.calls ++ more.calls)

/-- Stem of `ResNet2D.__init__` (`resnet_models_2d.py` lines 75-85):
`conv1` → `bn_conv1` → activation, then a pooling layer when
`pooling_func[0]` is `'max'` or `'average'` (silently skipped otherwise). -/
def ResNet2D_stem (activation : List Nat) (n_filters : Nat) (pooling0 : List Nat)
    (inputs : T) : T × List (List Nat) :=
  let x1 := T.app (LayerCfg.mk LKind.complexConv2D (strCodes "conv1") n_filters 2 7 []) inputs
  let x2 := T.app (LayerCfg.mk LKind.complexBatchNorm (strCodes "bn_conv1") 0 1 0 []) x1
  let x3 := T.app (LayerCfg.mk LKind.activationLayer (strCodes "conv1_" ++ activation) 0 1 0 activation) x2
  if pooling0 = strCodes "max" then
    (T.app (LayerCfg.mk LKind.complexMaxPooling2D (strCodes "pool1") 0 2 3 []) x3,
     [strCodes "conv1", strCodes "bn_conv1", strCodes "conv1_" ++ activation, strCodes "pool1"])
  else if pooling0 = strCodes "average" then
    (T.app (LayerCfg.mk LKind.complexAveragePooling2D (strCodes "pool1") 0 2 3 []) x3,
     [strCodes "conv1", strCodes "bn_conv1", strCodes "conv1_" ++ activation, strCodes "pool1"])
  else (x3, [strCodes "conv1", strCodes "bn_conv1", strCodes "conv1_" ++ activation])

/-- Head pooling of `ResNet2D.__init__` (`resnet_models_2d.py` lines 105-112):
`pool5` layer selected by `pooling_func[1]` (none when the tag is unknown);
also returns the rank of the resulting tensor (`global_average` collapses to
rank 2, the complex poolings keep the input rank). -/
def ResNet2D_headPool (inputNdim : Nat) (pooling1 : List Nat) (x : T) :
    T × List (List Nat) × Nat :=
  if pooling1 = strCodes "global_average" then
    (T.app (LayerCfg.mk LKind.globalAveragePooling2D (strCodes "pool5") 0 1 0 []) x,
     [strCodes "pool5"], 2)
  else if pooling1 = strCodes "complex_average" then
    (T.app (LayerCfg.mk LKind.complexAveragePooling2D (strCodes "pool5") 0 1 0 []) x,
     [strCodes "pool5"], inputNdim)
  else if pooling1 = strCodes "complex_max" then
    (T.app (LayerCfg.mk LKind.complexMaxPooling2D (strCodes "pool5") 0 1 0 []) x,
     [strCodes "pool5"], inputNdim)
  else if pooling1 = strCodes "spectral_average" then
    (T.app (LayerCfg.mk LKind.spectralPooling2D (strCodes "pool5") 0 1 0 []) x,
     [strCodes "pool5"], inputNdim)
  else (x, [], inputNdim)

/-- Result of a successful `ResNet2D` construction: the model outputs (the
classification tensor, or the per-stage features), all created layer names in
creation order, and the block-builder call triples. -/
structure ModelRes where
  outputs : List T
  names : List (List Nat)
  calls : List (Nat × Nat × Nat)
deriving DecidableEq, Repr

/-- Configuration of the final layer of a model output (the classification
dense layer when the head is present). -/
def headCfgOf (r : ModelRes) : Option LayerCfg :=
  match r.outputs with
  | [T.app cfg _] => some cfg
  | _ => none

/-- Embedding of `ResNet2D.__init__` (`resnet_models_2d.py` lines 55-129).
`inputNdim` is the rank of the input tensor (queried by `K.ndim`); a failing
`assert classes > 0` is returned as `Except.error` carrying the names of the
layers already created at that point. -/
def ResNet2D_build (bk : BlockKind) (inputNdim : Nat) (num_blocks : List Nat)
    (activation : List Nat) (n_filters : Nat) (pooling0 pooling1 : List Nat)
    (include_top : Bool) (classes : Nat) (numerical_names : Option (List Bool))
    (output_activation : Option (List Nat)) (inputs : T) :
    Except (List (List Nat)) ModelRes :=
  let nns := numerical_names.getD (List.replicate num_blocks.length true)
  let stem := ResNet2D_stem activation n_filters pooling0 inputs
  let st := stagesLoop bk activation num_blocks nns n_filters 0 stem.1
  if include_top then
    if 0 < classes then
      let head := ResNet2D_headPool inputNdim pooling1 st.x
      let out_act := (output_activation.getD (strCodes "softmax"))
      let flat := if 2 < head.2.2 then T.app (LayerCfg.mk LKind.flattenLayer [] 0 1 0 []) head.1 else head.1
      let fc_name := strCodes "fc" ++ decimalCodes classes
      let final :=
        if startsWith out_act (strCodes "complex_") then
          T.app (LayerCfg.mk LKind.complexDenseLayer fc_name classes 1 0
            (out_act.drop (strCodes "complex_").length)) flat
        else
          T.app (LayerCfg.mk LKind.denseLayer fc_name classes 1 0 out_act) flat
      Except.ok (ModelRes.mk [final] (stem.2 ++ st.names ++ head.2.1 ++ [fc_name]) st.calls)
    else Except.error (stem.2 ++ st.names)
  else Except.ok (ModelRes.mk st.outs (stem.2 ++ st.names) st.calls)

/-- Default `block_func` of `ResNet2D18.__init__` (`basic_2d`). -/
def ResNet2D18_default_block : BlockKind := BlockKind.basic

/-- Default `block_func` of `ResNet2D34.__init__` (`basic_2d`). -/
def ResNet2D34_default_block : BlockKind := BlockKind.basic

/-- Default `block_func` of `ResNet2D50.__init__` (`bottleneck_2d`). -/
def ResNet2D50_default_block : BlockKind := BlockKind.bottleneck

/-- Default `block_func` of `ResNet2D101.__init__` (`bottleneck_2d`). -/
def ResNet2D101_default_block : BlockKind := BlockKind.bottleneck

/-- Default `block_func` of `ResNet2D152.__init__` (`bottleneck_2d`). -/
def ResNet2D152_default_block : BlockKind := BlockKind.bottleneck

/-- Default `block_func` of `ResNet2D200.__init__` (`bottleneck_2d`). -/
def ResNet2D200_default_block : BlockKind := BlockKind.bottleneck

/-- Embedding of `ResNet2D18.__init__` (`resnet_models_2d.py` lines 168-199):
`num_blocks` defaults to `[2, 2, 2, 2]`; the caller's `numerical_names` is
forwarded unchanged. -/
def ResNet2D18_init (bk : BlockKind) (inputNdim : Nat) (num_blocks : Option (List Nat))
    (conv_activation : List Nat) (n_filters : Nat) (pooling0 pooling1 : List Nat)
    (include_top : Bool) (classes : Nat) (numerical_names : Option (List Bool))
    (output_activation : Option (List Nat)) (inputs : T) :
    Except (List (List Nat)) ModelRes :=
  let nb := num_blocks.getD [2, 2, 2, 2]
  ResNet2D_build bk inputNdim nb conv_activation n_filters pooling0 pooling1
    include_top classes numerical_names output_activation inputs

/-- Embedding of `ResNet2D34.__init__` (`resnet_models_2d.py` lines 238-269):
`num_blocks` defaults to `[3, 4, 6, 3]`; `numerical_names` is forwarded. -/
def ResNet2D34_init (bk : BlockKind) (inputNdim : Nat) (num_blocks : Option (List Nat))
    (conv_activation : List Nat) (n_filters : Nat) (pooling0 pooling1 : List Nat)
    (include_top : Bool) (classes : Nat) (numerical_names : Option (List Bool))
    (output_activation : Option (List Nat)) (inputs : T) :
    Except (List (List Nat)) ModelRes :=
  let nb := num_blocks.getD [3, 4, 6, 3]
  ResNet2D_build bk inputNdim nb conv_activation n_filters pooling0 pooling1
    include_top classes numerical_names output_activation inputs

/-- Embedding of `ResNet2D50.__init__` (`resnet_models_2d.py` lines 308-341):
`num_blocks` defaults to `[3, 4, 6, 3]` and `numerical_names` is overwritten
with `[False, False, False, False]` regardless of the caller's value. -/
def ResNet2D50_init (bk : BlockKind) (inputNdim : Nat) (num_blocks : Option (List Nat))
    (conv_activation : List Nat) (n_filters : Nat) (pooling0 pooling1 : List Nat)
    (include_top : Bool) (classes : Nat) (numerical_names : Option (List Bool))
    (output_activation : Option (List Nat)) (inputs : T) :
    Except (List (List Nat)) ModelRes :=
  let nb := num_blocks.getD [3, 4, 6, 3]
  ResNet2D_build bk inputNdim nb conv_activation n_filters pooling0 pooling1
    include_top classes (some [false, false, false, false]) output_activation inputs

/-- Embedding of `ResNet2D101.__init__` (`resnet_models_2d.py` lines 380-413):
`num_blocks` defaults to `[3, 4, 23, 3]` and `numerical_names` is overwritten
with `[False, True, True, False]`. -/
def ResNet2D101_init (bk : BlockKind) (inputNdim : Nat) (num_blocks : Option (List Nat))
    (conv_activation : List Nat) (n_filters : Nat) (pooling0 pooling1 : List Nat)
    (include_top : Bool) (classes : Nat) (numerical_names : Option (List Bool))
    (output_activation : Option (List Nat)) (inputs : T) :
    Except (List (List Nat)) ModelRes :=
  let nb := num_blocks.getD [3, 4, 23, 3]
  ResNet2D_build bk inputNdim nb conv_activation n_filters pooling0 pooling1
    include_top classes (some [false, true, true, false]) output_activation inputs

/-- Embedding of `ResNet2D152.__init__` (`resnet_models_2d.py` lines 452-485):
`num_blocks` defaults to `[3, 8, 36, 3]` and `numerical_names` is overwritten
with `[False, True, True, False]`. -/
def ResNet2D152_init (bk : BlockKind) (inputNdim : Nat) (num_blocks : Option (List Nat))
    (conv_activation : List Nat) (n_filters : Nat) (pooling0 pooling1 : List Nat)
    (include_top : Bool) (classes : Nat) (numerical_names : Option (List Bool))
    (output_activation : Option (List Nat)) (inputs : T) :
    Except (List (List Nat)) ModelRes :=
  let nb := num_blocks.getD [3, 8, 36, 3]
  ResNet2D_build bk inputNdim nb conv_activation n_filters pooling0 pooling1
    include_top classes (some [false, true, true, false]) output_activation inputs

/-- Embedding of `ResNet2D200.__init__` (`resnet_models_2d.py` lines 524-557):
`num_blocks` defaults to `[3, 24, 36, 3]` and `numerical_names` is overwritten
with `[False, True, True, False]`. -/
def ResNet2D200_init (bk : BlockKind) (inputNdim : Nat) (num_blocks : Option (List Nat))
    (conv_activation : List Nat) (n_filters : Nat) (pooling0 pooling1 : List Nat)
    (include_top : Bool) (classes : Nat) (numerical_names : Option (List Bool))
    (output_activation : Option (List Nat)) (inputs : T) :
    Except (List (List Nat)) ModelRes :=
  let nb := num_blocks.getD [3, 24, 36, 3]
  ResNet2D_build bk inputNdim nb conv_activation n_filters pooling0 pooling1
    include_top classes (some [false, true, true, false]) output_activation inputs

/-- Codepoint of the `k`-th lowercase letter (`'a'` is the 1st); spec-side
definition used to state the naming claim. -/
def nthLowercaseLetterCode (k : Nat) : Nat := 96 + k

/-- Value of a little-endian decimal codepoint list (left inverse used to show
injectivity of the rendering). -/
def ofCodes : List Nat → Nat
  | [] => 0
  | c :: cs => (c - 48) + 10 * ofCodes cs

/-- Renders a (role, tail) pair around a stage/block prefix. -/
def specRender (P : List Nat) (rt : List Nat × List Nat) : List Nat :=
  rt.1 ++ P ++ rt.2

/-- Role/tail pairs of the names created by `basic_3d`, in creation order. -/
def basicSpecs (first : Bool) (act : List Nat) : List (List Nat × List Nat) :=
  [(strCodes "padding", strCodes "_branch2a"),
   (strCodes "res", strCodes "_branch2a"),
   (strCodes "bn", strCodes "_branch2a"),
   (strCodes "res", strCodes "_branch2a_" ++ act),
   (strCodes "padding", strCodes "_branch2b"),
   (strCodes "res", strCodes "_branch2b"),
   (strCodes "bn", strCodes "_branch2b")]
  ++ (if first then [(strCodes "res", strCodes "_branch1"), (strCodes "bn", strCodes "_branch1")] else [])
  ++ [(strCodes "res", []), (strCodes "res", strCodes "_" ++ act)]

/-- Role/tail pairs of the names created by `bottleneck_3d`, in creation order. -/
def bottleneckSpecs (first : Bool) (act : List Nat) : List (List Nat × List Nat) :=
  [(strCodes "res", strCodes "_branch2a"),
   (strCodes "bn", strCodes "_branch2a"),
   (strCodes "res", strCodes "_branch2a_" ++ act),
   (strCodes "padding", strCodes "_branch2b"),
   (strCodes "res", strCodes "_branch2b"),
   (strCodes "bn", strCodes "_branch2b"),
   (strCodes "res", strCodes "_branch2b_" ++ act),
   (strCodes "res", strCodes "_branch2c"),
   (strCodes "bn", strCodes "_branch2c")]
  ++ (if first then [(strCodes "res", strCodes "_branch1"), (strCodes "bn", strCodes "_branch1")] else [])
  ++ [(strCodes "res", []), (strCodes "res", strCodes "_" ++ act)]

/-- Role/tail pairs for either block kind. -/
def blockSpecs (bk : BlockKind) (first : Bool) (act : List Nat) : List (List Nat × List Nat) :=
  match bk with
  | BlockKind.basic => basicSpecs first act
  | BlockKind.bottleneck => bottleneckSpecs first act

/-- Predicate: `n` is one of the layer names created by block `block` of stage
`stage` (with the stage's `numerical_names` flag `fl`). -/
def IsBlockName (bk : BlockKind) (act : List Nat) (stage block : Nat) (fl : Bool)
    (n : List Nat) : Prop :=
  ∃ rt ∈ blockSpecs bk (decide (block = 0)) act,
    n = specRender (pfxOf stage block (decide (0 < block) && fl)) rt

/-! ### Decimal rendering: bounds, non-emptiness, injectivity -/

theorem mem_decimalAux : ∀ {fuel n x : Nat}, x ∈ decimalAux fuel n → 48 ≤ x ∧ x < 58 := by
  intro fuel
  induction fuel with
  | zero => intro n x hx; simp [decimalAux] at hx
  | succ fuel ih =>
    intro n x hx
    match n with
    | 0 => simp [decimalAux] at hx
    | n + 1 =>
      simp only [decimalAux, List.mem_cons] at hx
      rcases hx with rfl | hx
      · have := Nat.mod_lt (n + 1) (show 0 < 10 by omega)
        omega
      · exact ih hx

theorem mem_decimalCodes {n x : Nat} (hx : x ∈ decimalCodes n) : 48 ≤ x ∧ x < 58 := by
  unfold decimalCodes at hx
  split at hx
  · simp at hx; omega
  · exact mem_decimalAux (List.mem_reverse.mp hx)

theorem ofCodes_decimalAux : ∀ fuel n, n ≤ fuel → ofCodes (decimalAux fuel n) = n := by
  intro fuel
  induction fuel with
  | zero => intro n hn; interval_cases n; simp [decimalAux, ofCodes]
  | succ fuel ih =>
    intro n hn
    match n with
    | 0 => simp [decimalAux, ofCodes]
    | n + 1 =>
      have hdiv : (n + 1) / 10 ≤ fuel := by
        have := Nat.div_lt_self (show 0 < n + 1 by omega) (show 1 < 10 by omega)
        omega
      simp only [decimalAux, ofCodes, ih _ hdiv]
      have := Nat.mod_add_div (n + 1) 10
      omega

theorem decimalCodes_decode : ∀ n, ofCodes (decimalCodes n).reverse = n := by
  intro n
  match n with
  | 0 => simp [decimalCodes, ofCodes]
  | n + 1 =>
    have h1 : decimalCodes (n + 1) = (decimalAux (n + 1) (n + 1)).reverse := by
      simp [decimalCodes]
    rw [h1, List.reverse_reverse]
    exact ofCodes_decimalAux _ _ (Nat.le_refl _)

theorem decimalCodes_inj {m n : Nat} (h : decimalCodes m = decimalCodes n) : m = n := by
  have := congrArg (fun l => ofCodes l.reverse) h
  simpa [decimalCodes_decode] using this

theorem decimalCodes_ne_nil (n : Nat) : decimalCodes n ≠ [] := by
  match n with
  | 0 => simp [decimalCodes]
  | n + 1 => simp [decimalCodes, decimalAux]

/-! ### List-splitting toolkit -/

theorem ne_of_length {l₁ l₂ : List Nat} (h : l₁.length ≠ l₂.length) : l₁ ≠ l₂ :=
  fun he => h (he ▸ rfl)

theorem ne_of_probe {l₁ l₂ : List Nat} (i : Nat) (h : l₁[i]? ≠ l₂[i]?) : l₁ ≠ l₂ :=
  fun he => h (he ▸ rfl)

/-- Splitting a digit-prefixed name at the first non-digit: if two
concatenations agree, the digit runs and non-digit-headed remainders agree. -/
theorem digit_split : ∀ (d₁ d₂ r₁ r₂ : List Nat),
    (∀ x ∈ d₁, x < 58) → (∀ x ∈ d₂, x < 58) →
    (∀ c, r₁.head? = some c → 58 ≤ c) → (∀ c, r₂.head? = some c → 58 ≤ c) →
    d₁ ++ r₁ = d₂ ++ r₂ → d₁ = d₂ ∧ r₁ = r₂ := by
  intro d₁
  induction d₁ with
  | nil =>
    intro d₂ r₁ r₂ _ hd₂ hr₁ _ h
    match d₂ with
    | [] => exact ⟨rfl, h⟩
    | y :: ys =>
      exfalso
      have hy : r₁ = y :: (ys ++ r₂) := by simpa using h
      have := hr₁ y (by rw [hy]; rfl)
      have := hd₂ y (by simp)
      omega
  | cons x xs ih =>
    intro d₂ r₁ r₂ hd₁ hd₂ hr₁ hr₂ h
    match d₂ with
    | [] =>
      exfalso
      have hx : r₂ = x :: (xs ++ r₁) := by simpa using h.symm
      have := hr₂ x (by rw [hx]; rfl)
      have := hd₁ x (by simp)
      omega
    | y :: ys =>
      simp only [List.cons_append, List.cons.injEq] at h
      obtain ⟨rfl, h2⟩ := h
      obtain ⟨h3, h4⟩ := ih ys r₁ r₂ (fun z hz => hd₁ z (by simp [hz]))
        (fun z hz => hd₂ z (by simp [hz])) hr₁ hr₂ h2
      exact ⟨by rw [h3], h4⟩

/-! ### Block-character and prefix injectivity -/

theorem blockChar_cons (b : Nat) (nn : Bool) :
    ∃ c cs, blockChar b nn = c :: cs ∧ 97 ≤ c := by
  unfold blockChar
  split
  · exact ⟨98, decimalCodes b, rfl, by omega⟩
  · exact ⟨97 + b, [], rfl, by omega⟩

theorem blockChar_norm (b : Nat) (fl : Bool) :
    blockChar b (decide (0 < b) && fl) = blockChar b fl := by
  match b with
  | 0 => simp [blockChar]
  | b + 1 => cases fl <;> simp [blockChar]

/-- Two prefixed names agree only if the stages agree; the remainder equality
on block characters and tails is returned for further splitting. -/
theorem pfx_split {s₁ b₁ s₂ b₂ : Nat} {nn₁ nn₂ : Bool} {t₁ t₂ : List Nat}
    (h : pfxOf s₁ b₁ nn₁ ++ t₁ = pfxOf s₂ b₂ nn₂ ++ t₂) :
    s₁ = s₂ ∧ blockChar b₁ nn₁ ++ t₁ = blockChar b₂ nn₂ ++ t₂ := by
  unfold pfxOf at h
  rw [List.append_assoc, List.append_assoc] at h
  have hsplit := digit_split (decimalCodes (s₁ + 2)) (decimalCodes (s₂ + 2))
    (blockChar b₁ nn₁ ++ t₁) (blockChar b₂ nn₂ ++ t₂)
    (fun x hx => (mem_decimalCodes hx).2) (fun x hx => (mem_decimalCodes hx).2)
    ?hc₁ ?hc₂ h
  case hc₁ =>
    intro c hc
    obtain ⟨c', cs, hbc, hge⟩ := blockChar_cons b₁ nn₁
    rw [hbc] at hc
    simp at hc
    omega
  case hc₂ =>
    intro c hc
    obtain ⟨c', cs, hbc, hge⟩ := blockChar_cons b₂ nn₂
    rw [hbc] at hc
    simp at hc
    omega
  refine ⟨?_, hsplit.2⟩
  have := decimalCodes_inj hsplit.1
  omega

/-- Within one stage (one `numerical_names` flag), the block character followed
by an underscore-headed (or empty) tail determines the block index and tail. -/
theorem blockChar_inj {fl : Bool} {b₁ b₂ : Nat} {t₁ t₂ : List Nat}
    (ht₁ : ∀ c, t₁.head? = some c → c = 95) (ht₂ : ∀ c, t₂.head? = some c → c = 95)
    (h : blockChar b₁ fl ++ t₁ = blockChar b₂ fl ++ t₂) : b₁ = b₂ ∧ t₁ = t₂ := by
  match b₁, b₂ with
  | 0, 0 =>
    refine ⟨rfl, ?_⟩
    simpa [blockChar] using h
  | 0, b + 1 =>
    exfalso
    cases fl <;> simp [blockChar] at h
  | b + 1, 0 =>
    exfalso
    cases fl <;> simp [blockChar] at h
  | b + 1, c + 1 =>
    cases fl with
    | false =>
      rw [show blockChar (b + 1) false = [97 + (b + 1)] from by
            unfold blockChar; rw [if_neg (by simp)],
          show blockChar (c + 1) false = [97 + (c + 1)] from by
            unfold blockChar; rw [if_neg (by simp)]] at h
      simp only [List.singleton_append, List.cons.injEq] at h
      exact ⟨by omega, h.2⟩
    | true =>
      rw [show blockChar (b + 1) true = 98 :: decimalCodes (b + 1) from by
            unfold blockChar; rw [if_pos ⟨Nat.succ_pos b, rfl⟩],
          show blockChar (c + 1) true = 98 :: decimalCodes (c + 1) from by
            unfold blockChar; rw [if_pos ⟨Nat.succ_pos c, rfl⟩]] at h
      simp only [List.cons_append, List.cons.injEq] at h
      have hsplit := digit_split (decimalCodes (b + 1)) (decimalCodes (c + 1)) t₁ t₂
        (fun x hx => (mem_decimalCodes hx).2) (fun x hx => (mem_decimalCodes hx).2)
        (fun d hd => by have := ht₁ d hd; omega)
        (fun d hd => by have := ht₂ d hd; omega) h.2
      exact ⟨by have := decimalCodes_inj hsplit.1; omega, hsplit.2⟩

/-! ### Normal form for block layer names: role/tail pairs around the prefix -/

theorem runBlock_names (bk : BlockKind) (f s b : Nat) (nn : Bool) (act : List Nat) (x : T) :
    (runBlock bk f s b nn act x).2
      = (blockSpecs bk (decide (b = 0)) act).map (specRender (pfxOf s b nn)) := by
  cases bk <;> cases b <;>
    simp [runBlock, basic_3d, bottleneck_3d, blockSpecs, basicSpecs, bottleneckSpecs,
      specRender, List.append_assoc]

/-- Shape of every block-name spec pair: the role is one of `padding`, `res`,
`bn`, and the tail is empty or begins with an underscore. -/
theorem blockSpecs_shape {bk : BlockKind} {first : Bool} {act : List Nat}
    {rt : List Nat × List Nat} (h : rt ∈ blockSpecs bk first act) :
    (rt.1 = strCodes "padding" ∨ rt.1 = strCodes "res" ∨ rt.1 = strCodes "bn") ∧
    (∀ c, rt.2.head? = some c → c = 95) := by
  cases bk <;> cases first <;>
      simp [blockSpecs, basicSpecs, bottleneckSpecs, or_assoc] at h <;>
    rcases h with rfl | h <;>
    try rcases h with rfl | h
  all_goals try rcases h with rfl | h
  all_goals try rcases h with rfl | h
  all_goals try rcases h with rfl | h
  all_goals try rcases h with rfl | h
  all_goals try rcases h with rfl | h
  all_goals try rcases h with rfl | h
  all_goals try rcases h with rfl | h
  all_goals try rcases h with rfl | h
  all_goals try rcases h with rfl | h
  all_goals try rcases h with rfl | h
  all_goals try rcases h with rfl | h
  all_goals exact ⟨by simp, fun c hc => by
    first
      | exact (Option.some.inj hc).symm
      | simp at hc⟩

/-! ### Pairwise distinctness of the tails occurring in one block -/

theorem tail_a2_ne_A (act : List Nat) : strCodes "_branch2a" ≠ strCodes "_branch2a_" ++ act := by
  apply ne_of_length
  rw [List.length_append, show (strCodes "_branch2a").length = 9 from by decide,
    show (strCodes "_branch2a_").length = 10 from by decide]
  omega

theorem tail_a2_ne_B (act : List Nat) : strCodes "_branch2a" ≠ strCodes "_branch2b_" ++ act := by
  apply ne_of_length
  rw [List.length_append, show (strCodes "_branch2a").length = 9 from by decide,
    show (strCodes "_branch2b_").length = 10 from by decide]
  omega

theorem tail_a2_ne_U {act : List Nat} (h2 : act ≠ strCodes "branch2a") :
    strCodes "_branch2a" ≠ strCodes "_" ++ act := by
  intro h
  rw [show strCodes "_branch2a" = 95 :: strCodes "branch2a" from rfl,
    show strCodes "_" = [95] from rfl] at h
  simp only [List.singleton_append, List.cons.injEq, true_and] at h
  exact h2 h.symm

theorem tail_A_ne_b2 (act : List Nat) : strCodes "_branch2a_" ++ act ≠ strCodes "_branch2b" := by
  apply ne_of_length
  rw [List.length_append, show (strCodes "_branch2a_").length = 10 from by decide,
    show (strCodes "_branch2b").length = 9 from by decide]
  omega

theorem tail_A_ne_c2 (act : List Nat) : strCodes "_branch2a_" ++ act ≠ strCodes "_branch2c" := by
  apply ne_of_length
  rw [List.length_append, show (strCodes "_branch2a_").length = 10 from by decide,
    show (strCodes "_branch2c").length = 9 from by decide]
  omega

theorem tail_A_ne_B (act : List Nat) : strCodes "_branch2a_" ++ act ≠ strCodes "_branch2b_" ++ act := by
  apply ne_of_probe 8
  rw [List.getElem?_append_left (by decide), List.getElem?_append_left (by decide)]
  decide

theorem tail_A_ne_b1 (act : List Nat) : strCodes "_branch2a_" ++ act ≠ strCodes "_branch1" := by
  apply ne_of_length
  rw [List.length_append, show (strCodes "_branch2a_").length = 10 from by decide,
    show (strCodes "_branch1").length = 8 from by decide]
  omega

theorem tail_A_ne_e (act : List Nat) : strCodes "_branch2a_" ++ act ≠ [] := by
  apply ne_of_length
  rw [List.length_append, show (strCodes "_branch2a_").length = 10 from by decide]
  simp

theorem tail_A_ne_U (act : List Nat) : strCodes "_branch2a_" ++ act ≠ strCodes "_" ++ act := by
  apply ne_of_length
  rw [List.length_append, List.length_append,
    show (strCodes "_branch2a_").length = 10 from by decide,
    show (strCodes "_").length = 1 from by decide]
  omega

theorem tail_b2_ne_B (act : List Nat) : strCodes "_branch2b" ≠ strCodes "_branch2b_" ++ act := by
  apply ne_of_length
  rw [List.length_append, show (strCodes "_branch2b").length = 9 from by decide,
    show (strCodes "_branch2b_").length = 10 from by decide]
  omega

theorem tail_b2_ne_U {act : List Nat} (h3 : act ≠ strCodes "branch2b") :
    strCodes "_branch2b" ≠ strCodes "_" ++ act := by
  intro h
  rw [show strCodes "_branch2b" = 95 :: strCodes "branch2b" from rfl,
    show strCodes "_" = [95] from rfl] at h
  simp only [List.singleton_append, List.cons.injEq, true_and] at h
  exact h3 h.symm

theorem tail_B_ne_c2 (act : List Nat) : strCodes "_branch2b_" ++ act ≠ strCodes "_branch2c" := by
  apply ne_of_length
  rw [List.length_append, show (strCodes "_branch2b_").length = 10 from by decide,
    show (strCodes "_branch2c").length = 9 from by decide]
  omega

theorem tail_B_ne_b1 (act : List Nat) : strCodes "_branch2b_" ++ act ≠ strCodes "_branch1" := by
  apply ne_of_length
  rw [List.length_append, show (strCodes "_branch2b_").length = 10 from by decide,
    show (strCodes "_branch1").length = 8 from by decide]
  omega

theorem tail_B_ne_e (act : List Nat) : strCodes "_branch2b_" ++ act ≠ [] := by
  apply ne_of_length
  rw [List.length_append, show (strCodes "_branch2b_").length = 10 from by decide]
  simp

theorem tail_B_ne_U (act : List Nat) : strCodes "_branch2b_" ++ act ≠ strCodes "_" ++ act := by
  apply ne_of_length
  rw [List.length_append, List.length_append,
    show (strCodes "_branch2b_").length = 10 from by decide,
    show (strCodes "_").length = 1 from by decide]
  omega

theorem tail_c2_ne_U {act : List Nat} (h4 : act ≠ strCodes "branch2c") :
    strCodes "_branch2c" ≠ strCodes "_" ++ act := by
  intro h
  rw [show strCodes "_branch2c" = 95 :: strCodes "branch2c" from rfl,
    show strCodes "_" = [95] from rfl] at h
  simp only [List.singleton_append, List.cons.injEq, true_and] at h
  exact h4 h.symm

theorem tail_b1_ne_U {act : List Nat} (h1 : act ≠ strCodes "branch1") :
    strCodes "_branch1" ≠ strCodes "_" ++ act := by
  intro h
  rw [show strCodes "_branch1" = 95 :: strCodes "branch1" from rfl,
    show strCodes "_" = [95] from rfl] at h
  simp only [List.singleton_append, List.cons.injEq, true_and] at h
  exact h1 h.symm

theorem tail_e_ne_U (act : List Nat) : ([] : List Nat) ≠ strCodes "_" ++ act := by
  intro h
  rw [show strCodes "_" = [95] from rfl] at h
  simp at h

/-- Spec pair lists of a block are duplicate-free as long as the activation
name is not one of the reserved branch suffixes. -/
theorem blockSpecs_nodup {bk : BlockKind} {first : Bool} {act : List Nat}
    (h1 : act ≠ strCodes "branch1") (h2 : act ≠ strCodes "branch2a")
    (h3 : act ≠ strCodes "branch2b") (h4 : act ≠ strCodes "branch2c") :
    (blockSpecs bk first act).Nodup := by
  cases bk <;> cases first <;>
    simp +decide [blockSpecs, basicSpecs, bottleneckSpecs, List.nodup_cons,
      tail_a2_ne_A act, tail_a2_ne_B act, tail_a2_ne_U h2, tail_A_ne_b2 act,
      tail_A_ne_c2 act, tail_A_ne_B act, tail_A_ne_b1 act, tail_A_ne_e act,
      tail_A_ne_U act, tail_b2_ne_B act, tail_b2_ne_U h3, tail_B_ne_c2 act,
      tail_B_ne_b1 act, tail_B_ne_e act, tail_B_ne_U act, tail_c2_ne_U h4,
      tail_b1_ne_U h1, tail_e_ne_U act]

/-! ### Injectivity of rendered names -/

/-- Two rendered names agree only if their roles agree, in which case the
prefix-and-tail parts agree. -/
theorem render_role_cancel {P₁ P₂ r₁ t₁ r₂ t₂ : List Nat}
    (s₁ : r₁ = strCodes "padding" ∨ r₁ = strCodes "res" ∨ r₁ = strCodes "bn")
    (s₂ : r₂ = strCodes "padding" ∨ r₂ = strCodes "res" ∨ r₂ = strCodes "bn")
    (h : (r₁ ++ P₁) ++ t₁ = (r₂ ++ P₂) ++ t₂) :
    r₁ = r₂ ∧ P₁ ++ t₁ = P₂ ++ t₂ := by
  rcases s₁ with rfl | rfl | rfl <;> rcases s₂ with rfl | rfl | rfl <;>
    first
      | (refine ⟨rfl, ?_⟩
         rw [List.append_assoc, List.append_assoc] at h
         exact List.append_cancel_left h)
      | (exfalso
         have hp := congrArg (fun l => l[0]?) h
         simp only [show strCodes "padding" = 112 :: strCodes "adding" from rfl,
           show strCodes "res" = 114 :: strCodes "es" from rfl,
           show strCodes "bn" = 98 :: strCodes "n" from rfl,
           List.cons_append, List.getElem?_cons_zero] at hp
         exact absurd hp (by decide))

theorem specRender_inj {P : List Nat} {rt₁ rt₂ : List Nat × List Nat}
    (s₁ : rt₁.1 = strCodes "padding" ∨ rt₁.1 = strCodes "res" ∨ rt₁.1 = strCodes "bn")
    (s₂ : rt₂.1 = strCodes "padding" ∨ rt₂.1 = strCodes "res" ∨ rt₂.1 = strCodes "bn")
    (h : specRender P rt₁ = specRender P rt₂) : rt₁ = rt₂ := by
  obtain ⟨r₁, t₁⟩ := rt₁
  obtain ⟨r₂, t₂⟩ := rt₂
  simp only at s₁ s₂
  unfold specRender at h
  simp only at h
  obtain ⟨hr, ht⟩ := render_role_cancel s₁ s₂ h
  subst hr
  simp [List.append_cancel_left ht]

theorem mem_runBlock_names {bk : BlockKind} {act : List Nat} {f s b : Nat} {fl : Bool}
    {x : T} {n : List Nat}
    (h : n ∈ (runBlock bk f s b (decide (0 < b) && fl) act x).2) :
    IsBlockName bk act s b fl n := by
  rw [runBlock_names] at h
  obtain ⟨rt, hm, rfl⟩ := List.mem_map.mp h
  exact ⟨rt, hm, rfl⟩

/-- A block name determines its stage, and within a fixed stage flag its block
index. -/
theorem isBlockName_inj {bk : BlockKind} {act : List Nat} {s₁ b₁ s₂ b₂ : Nat}
    {fl₁ fl₂ : Bool} {n : List Nat}
    (h₁ : IsBlockName bk act s₁ b₁ fl₁ n) (h₂ : IsBlockName bk act s₂ b₂ fl₂ n) :
    s₁ = s₂ ∧ (fl₁ = fl₂ → b₁ = b₂) := by
  obtain ⟨rt₁, hm₁, rfl⟩ := h₁
  obtain ⟨rt₂, hm₂, heq⟩ := h₂
  obtain ⟨sh₁r, sh₁t⟩ := blockSpecs_shape hm₁
  obtain ⟨sh₂r, sh₂t⟩ := blockSpecs_shape hm₂
  obtain ⟨r₁, t₁⟩ := rt₁
  obtain ⟨r₂, t₂⟩ := rt₂
  simp only at sh₁r sh₁t sh₂r sh₂t
  unfold specRender at heq
  simp only at heq
  obtain ⟨-, key⟩ := render_role_cancel sh₁r sh₂r heq
  have hs := pfx_split key
  refine ⟨hs.1, ?_⟩
  rintro rfl
  have hb := hs.2
  rw [blockChar_norm, blockChar_norm] at hb
  exact (blockChar_inj sh₁t sh₂t hb).1

theorem runBlock_names_nodup (bk : BlockKind) (f s b : Nat) (nn : Bool)
    {act : List Nat} (x : T)
    (h1 : act ≠ strCodes "branch1") (h2 : act ≠ strCodes "branch2a")
    (h3 : act ≠ strCodes "branch2b") (h4 : act ≠ strCodes "branch2c") :
    ((runBlock bk f s b nn act x).2).Nodup := by
  rw [runBlock_names]
  refine (blockSpecs_nodup h1 h2 h3 h4).map_on ?_
  intro rt₁ hm₁ rt₂ hm₂ he
  exact specRender_inj (blockSpecs_shape hm₁).1 (blockSpecs_shape hm₂).1 he

/-! ### Names produced by the loops -/

theorem mem_blocksLoop_names {bk : BlockKind} {act : List Nat} {f s : Nat} {fl : Bool} :
    ∀ {r b : Nat} {x : T} {n : List Nat}, n ∈ (blocksLoop bk act f s fl b r x).names →
      ∃ b', b ≤ b' ∧ IsBlockName bk act s b' fl n := by
  intro r
  induction r with
  | zero => intro b x n h; simp [blocksLoop] at h
  | succ r ih =>
    intro b x n h
    simp only [blocksLoop, List.mem_append] at h
    rcases h with h | h
    · exact ⟨b, Nat.le_refl b, mem_runBlock_names h⟩
    · obtain ⟨b', hb', hn⟩ := ih h
      exact ⟨b', by omega, hn⟩

theorem blocksLoop_names_nodup {bk : BlockKind} {act : List Nat} {f s : Nat} {fl : Bool}
    (h1 : act ≠ strCodes "branch1") (h2 : act ≠ strCodes "branch2a")
    (h3 : act ≠ strCodes "branch2b") (h4 : act ≠ strCodes "branch2c") :
    ∀ (r b : Nat) (x : T), ((blocksLoop bk act f s fl b r x).names).Nodup := by
  intro r
  induction r with
  | zero => intro b x; simp [blocksLoop]
  | succ r ih =>
    intro b x
    simp only [blocksLoop]
    rw [List.nodup_append]
    refine ⟨runBlock_names_nodup bk f s b _ x h1 h2 h3 h4, ih _ _, ?_⟩
    intro n hn hn'
    obtain ⟨b', hb', hbn'⟩ := mem_blocksLoop_names hn'
    have hbn := mem_runBlock_names hn
    have := (isBlockName_inj hbn hbn').2 rfl
    omega

theorem mem_stagesLoop_names {bk : BlockKind} {act : List Nat} :
    ∀ {nbs : List Nat} {nns : List Bool} {f s : Nat} {x : T} {n : List Nat},
      n ∈ (stagesLoop bk act nbs nns f s x).names →
      ∃ s', s ≤ s' ∧ ∃ b, IsBlockName bk act s' b (nns.getD s' false) n := by
  intro nbs
  induction nbs with
  | nil => intro nns f s x n h; simp [stagesLoop] at h
  | cons iters rest ih =>
    intro nns f s x n h
    simp only [stagesLoop, List.mem_append] at h
    rcases h with h | h
    · obtain ⟨b', _, hn⟩ := mem_blocksLoop_names h
      exact ⟨s, Nat.le_refl s, b', hn⟩
    · obtain ⟨s', hs', hn⟩ := ih h
      exact ⟨s', by omega, hn⟩

theorem stagesLoop_names_nodup {bk : BlockKind} {act : List Nat}
    (h1 : act ≠ strCodes "branch1") (h2 : act ≠ strCodes "branch2a")
    (h3 : act ≠ strCodes "branch2b") (h4 : act ≠ strCodes "branch2c") :
    ∀ (nbs : List Nat) (nns : List Bool) (f s : Nat) (x : T),
      ((stagesLoop bk act nbs nns f s x).names).Nodup := by
  intro nbs
  induction nbs with
  | nil => intro nns f s x; simp [stagesLoop]
  | cons iters rest ih =>
    intro nns f s x
    simp only [stagesLoop]
    rw [List.nodup_append]
    refine ⟨blocksLoop_names_nodup h1 h2 h3 h4 _ _ _, ih _ _ _ _, ?_⟩
    intro n hn hn'
    obtain ⟨b, _, hbn⟩ := mem_blocksLoop_names hn
    obtain ⟨s', hs', b', hbn'⟩ := mem_stagesLoop_names hn'
    have := (isBlockName_inj hbn hbn').1
    omega

/-! ### Separating block names from stem and head names -/

/-- Every block name starts with `pa`, `re`, or `bn` followed by a digit. -/
theorem isBlockName_probe {bk : BlockKind} {act : List Nat} {s b : Nat} {fl : Bool}
    {n : List Nat} (h : IsBlockName bk act s b fl n) :
    (∃ m, n = 112 :: 97 :: m) ∨ (∃ m, n = 114 :: m) ∨
      (∃ d m, n = 98 :: 110 :: d :: m ∧ 48 ≤ d ∧ d < 58) := by
  obtain ⟨⟨r, t⟩, hm, rfl⟩ := h
  obtain ⟨shr, -⟩ := blockSpecs_shape hm
  simp only at shr
  rcases shr with rfl | rfl | rfl
  · left
    refine ⟨(strCodes "dding" ++ pfxOf s b (decide (0 < b) && fl)) ++ t, ?_⟩
    rw [show strCodes "padding" = 112 :: 97 :: strCodes "dding" from rfl]
    simp [specRender, List.cons_append]
  · right; left
    refine ⟨(strCodes "es" ++ pfxOf s b (decide (0 < b) && fl)) ++ t, ?_⟩
    rw [show strCodes "res" = 114 :: strCodes "es" from rfl]
    simp [specRender, List.cons_append]
  · right; right
    rcases hEq : decimalCodes (s + 2) with _ | ⟨c, cs⟩
    · exact absurd hEq (decimalCodes_ne_nil _)
    · have hcmem : c ∈ decimalCodes (s + 2) := by rw [hEq]; exact List.mem_cons_self _ _
      obtain ⟨hcl, hcu⟩ := mem_decimalCodes hcmem
      refine ⟨c, (cs ++ blockChar b (decide (0 < b) && fl)) ++ t, ?_, hcl, hcu⟩
      rw [show strCodes "bn" = 98 :: 110 :: ([] : List Nat) from rfl]
      simp [specRender, pfxOf, hEq, List.cons_append]

theorem mem_stem_names {act : List Nat} {f : Nat} {p0 : List Nat} {x : T} {n : List Nat}
    (h : n ∈ (ResNet2D_stem act f p0 x).2) :
    n = strCodes "conv1" ∨ n = strCodes "bn_conv1" ∨ n = strCodes "conv1_" ++ act ∨
      n = strCodes "pool1" := by
  simp only [ResNet2D_stem] at h
  split at h <;> [skip; split at h] <;> simp at h <;> tauto

theorem stem_names_nodup (act : List Nat) (f : Nat) (p0 : List Nat) (x : T) :
    ((ResNet2D_stem act f p0 x).2).Nodup := by
  have hc : strCodes "conv1" ≠ strCodes "conv1_" ++ act := by
    apply ne_of_length
    rw [List.length_append, show (strCodes "conv1").length = 5 from by decide,
      show (strCodes "conv1_").length = 6 from by decide]
    omega
  have hb : strCodes "bn_conv1" ≠ strCodes "conv1_" ++ act := by
    intro h
    rw [show strCodes "bn_conv1" = 98 :: strCodes "n_conv1" from rfl,
      show strCodes "conv1_" = 99 :: strCodes "onv1_" from rfl] at h
    simp [List.cons_append] at h
  have hp : strCodes "conv1_" ++ act ≠ strCodes "pool1" := by
    intro h
    rw [show strCodes "conv1_" = 99 :: strCodes "onv1_" from rfl,
      show strCodes "pool1" = 112 :: strCodes "ool1" from rfl] at h
    simp [List.cons_append] at h
  simp only [ResNet2D_stem]
  split <;> [skip; split] <;> simp +decide [hc, hb, hp]

/-- Stem layer names are never residual-block layer names. -/
theorem stem_names_not_block {bk : BlockKind} {act : List Nat} {s b : Nat} {fl : Bool}
    {n : List Nat}
    (hstem : n = strCodes "conv1" ∨ n = strCodes "bn_conv1" ∨
      n = strCodes "conv1_" ++ act ∨ n = strCodes "pool1")
    (hb : IsBlockName bk act s b fl n) : False := by
  have hprobe := isBlockName_probe hb
  rcases hstem with rfl | rfl | rfl | rfl <;>
    rcases hprobe with ⟨m, hm⟩ | ⟨m, hm⟩ | ⟨d, m, hm, hd1, hd2⟩ <;>
    simp_all only [show strCodes "conv1" = 99 :: strCodes "onv1" from rfl,
      show strCodes "bn_conv1" = 98 :: 110 :: 95 :: strCodes "conv1" from rfl,
      show strCodes "conv1_" = 99 :: strCodes "onv1_" from rfl,
      show strCodes "pool1" = 112 :: 111 :: strCodes "ol1" from rfl,
      List.cons_append, List.cons.injEq] <;>
    omega

theorem pool5_not_block {bk : BlockKind} {act : List Nat} {s b : Nat} {fl : Bool}
    (hb : IsBlockName bk act s b fl (strCodes "pool5")) : False := by
  rcases isBlockName_probe hb with ⟨m, hm⟩ | ⟨m, hm⟩ | ⟨d, m, hm, hd1, hd2⟩ <;>
    rw [show strCodes "pool5" = 112 :: 111 :: strCodes "ol5" from rfl] at hm <;>
    simp +decide [List.cons.injEq] at hm

theorem fc_not_block {bk : BlockKind} {act : List Nat} {s b cls : Nat} {fl : Bool}
    (hb : IsBlockName bk act s b fl (strCodes "fc" ++ decimalCodes cls)) : False := by
  rcases isBlockName_probe hb with ⟨m, hm⟩ | ⟨m, hm⟩ | ⟨d, m, hm, hd1, hd2⟩ <;>
    rw [show strCodes "fc" = 102 :: strCodes "c" from rfl] at hm <;>
    simp +decide [List.cons_append, List.cons.injEq] at hm

theorem pool5_not_stem {act : List Nat} {f : Nat} {p0 : List Nat} {x : T}
    (h : strCodes "pool5" ∈ (ResNet2D_stem act f p0 x).2) : False := by
  rcases mem_stem_names h with he | he | he | he
  · exact absurd he (by decide)
  · exact absurd he (by decide)
  · rw [show strCodes "pool5" = 112 :: strCodes "ool5" from rfl,
      show strCodes "conv1_" = 99 :: strCodes "onv1_" from rfl] at he
    simp [List.cons_append] at he
  · exact absurd he (by decide)

theorem fc_not_stem {act : List Nat} {f : Nat} {p0 : List Nat} {x : T} {cls : Nat}
    (h : strCodes "fc" ++ decimalCodes cls ∈ (ResNet2D_stem act f p0 x).2) : False := by
  rcases mem_stem_names h with he | he | he | he <;>
    rw [show strCodes "fc" = 102 :: strCodes "c" from rfl] at he <;>
    simp +decide [List.cons_append, List.cons.injEq,
      show strCodes "conv1" = 99 :: strCodes "onv1" from rfl,
      show strCodes "bn_conv1" = 98 :: strCodes "n_conv1" from rfl,
      show strCodes "conv1_" = 99 :: strCodes "onv1_" from rfl,
      show strCodes "pool1" = 112 :: strCodes "ool1" from rfl] at he

theorem pool5_ne_fc (cls : Nat) : strCodes "pool5" ≠ strCodes "fc" ++ decimalCodes cls := by
  intro h
  rw [show strCodes "pool5" = 112 :: strCodes "ool5" from rfl,
    show strCodes "fc" = 102 :: strCodes "c" from rfl] at h
  simp [List.cons_append] at h

/-- Master distinctness lemma: stem names, residual-stage names, an optional
`pool5` and an optional `fc{classes}` are pairwise distinct. -/
theorem names_concat_nodup {bk : BlockKind} {act : List Nat} {f : Nat} {p0 : List Nat}
    {x : T} {nbs : List Nat} {nns : List Bool} {f0 s0 : Nat}
    (h1 : act ≠ strCodes "branch1") (h2 : act ≠ strCodes "branch2a")
    (h3 : act ≠ strCodes "branch2b") (h4 : act ≠ strCodes "branch2c")
    (hdN : List (List Nat)) (cls : Nat)
    (hhd : hdN = [] ∨ hdN = [strCodes "pool5"])
    (fcN : List (List Nat)) (hfc : fcN = [] ∨ fcN = [strCodes "fc" ++ decimalCodes cls]) :
    ((ResNet2D_stem act f p0 x).2
      ++ (stagesLoop bk act nbs nns f0 s0 (ResNet2D_stem act f p0 x).1).names
      ++ hdN ++ fcN).Nodup := by
  rw [List.append_assoc, List.append_assoc, List.nodup_append]
  refine ⟨stem_names_nodup act f p0 x, ?_, ?_⟩
  · rw [List.nodup_append]
    refine ⟨stagesLoop_names_nodup h1 h2 h3 h4 _ _ _ _ _, ?_, ?_⟩
    · rcases hhd with rfl | rfl <;> rcases hfc with rfl | rfl <;>
        simp [List.Nodup, pool5_ne_fc cls]
    · intro n hn hn'
      obtain ⟨s', -, b', hbn⟩ := mem_stagesLoop_names hn
      rcases hhd with rfl | rfl <;> rcases hfc with rfl | rfl <;> simp at hn'
      · exact absurd hbn (by rw [hn']; exact fc_not_block)
      · exact absurd hbn (by rw [hn']; exact pool5_not_block)
      · rcases hn' with hn' | hn'
        · exact absurd hbn (by rw [hn']; exact pool5_not_block)
        · exact absurd hbn (by rw [hn']; exact fc_not_block)
  · intro n hn hn'
    rw [List.mem_append] at hn'
    rcases hn' with hn' | hn'
    · obtain ⟨s', -, b', hbn⟩ := mem_stagesLoop_names hn'
      exact stem_names_not_block (mem_stem_names hn) hbn
    · rw [List.mem_append] at hn'
      rcases hn' with hn' | hn'
      · rcases hhd with rfl | rfl <;> simp at hn'
        rw [hn'] at hn
        exact pool5_not_stem hn
      · rcases hfc with rfl | rfl <;> simp at hn'
        rw [hn'] at hn
        exact fc_not_stem hn

theorem headPool_names_cases (nd : Nat) (p1 : List Nat) (x : T) :
    (ResNet2D_headPool nd p1 x).2.1 = [] ∨
      (ResNet2D_headPool nd p1 x).2.1 = [strCodes "pool5"] := by
  unfold ResNet2D_headPool
  split <;> [skip; split] <;> [skip; skip; split] <;> [skip; skip; skip; split] <;> simp

/-- C1 (amended): for every configuration whose activation name is not one of
the reserved branch suffixes `branch1`, `branch2a`, `branch2b`, `branch2c`,
all layer names generated during a successful construction are pairwise
distinct, and building the same configuration twice yields identical layer
names. -/
theorem resnet2d_layer_names_nodup (bk : BlockKind) (nd : Nat) (nbs : List Nat)
    (act : List Nat) (f : Nat) (p0 p1 : List Nat) (top : Bool) (cls : Nat)
    (nns : Option (List Bool)) (oa : Option (List Nat)) (x : T) (r : ModelRes)
    (h1 : act ≠ strCodes "branch1") (h2 : act ≠ strCodes "branch2a")
    (h3 : act ≠ strCodes "branch2b") (h4 : act ≠ strCodes "branch2c")
    (hok : ResNet2D_build bk nd nbs act f p0 p1 top cls nns oa x = Except.ok r) :
    r.names.Nodup ∧
      ResNet2D_build bk nd nbs act f p0 p1 top cls nns oa x
        = ResNet2D_build bk nd nbs act f p0 p1 top cls nns oa x := by
  refine ⟨?_, rfl⟩
  unfold ResNet2D_build at hok
  cases top with
  | false =>
    simp only [Bool.false_eq_true, if_false] at hok
    injection hok with hX
    subst hX
    have hnd : ((ResNet2D_stem act f p0 x).2
        ++ (stagesLoop bk act nbs (nns.getD (List.replicate nbs.length true)) f 0
              (ResNet2D_stem act f p0 x).1).names
        ++ ([] : List (List Nat)) ++ ([] : List (List Nat))).Nodup :=
      names_concat_nodup h1 h2 h3 h4 [] 0 (Or.inl rfl) [] (Or.inl rfl)
    simpa using hnd
  | true =>
    simp only [eq_self_iff_true, if_true] at hok
    by_cases hcls : 0 < cls
    · rw [if_pos hcls] at hok
      injection hok with hX
      subst hX
      have hnd : ((ResNet2D_stem act f p0 x).2
          ++ (stagesLoop bk act nbs (nns.getD (List.replicate nbs.length true)) f 0
                (ResNet2D_stem act f p0 x).1).names
          ++ (ResNet2D_headPool nd p1
                (stagesLoop bk act nbs (nns.getD (List.replicate nbs.length true)) f 0
                  (ResNet2D_stem act f p0 x).1).x).2.1
          ++ [strCodes "fc" ++ decimalCodes cls]).Nodup :=
        names_concat_nodup h1 h2 h3 h4 _ cls (headPool_names_cases _ _ _) _ (Or.inr rfl)
      simpa using hnd
    · rw [if_neg hcls] at hok
      exact Except.noConfusion hok

/-- C1 witness: a depth-18-style two-stage configuration with activation
`crelu` builds successfully with pairwise distinct layer names. -/
theorem resnet2d_layer_names_nodup_witness :
    ∃ r, ResNet2D_build BlockKind.basic 4 [2, 2] (strCodes "crelu") 64 (strCodes "max")
        (strCodes "global_average") true 3 none none T.input = Except.ok r ∧
      r.names.Nodup :=
  ⟨_, rfl, (resnet2d_layer_names_nodup BlockKind.basic 4 [2, 2] (strCodes "crelu") 64
      (strCodes "max") (strCodes "global_average") true 3 none none T.input _
      (by decide) (by decide) (by decide) (by decide) rfl).1⟩

/-- C1 counterexample: with activation name `branch2a` the final activation
layer of a block receives the same name as the block's first convolution, so
the generated layer names are not pairwise distinct. -/
theorem resnet2d_layer_names_counterexample :
    ∃ r, ResNet2D_build BlockKind.basic 4 [1] (strCodes "branch2a") 64 (strCodes "max")
        (strCodes "global_average") false 1000 none none T.input = Except.ok r ∧
      ¬ r.names.Nodup :=
  ⟨_, rfl, by decide⟩

/-- C2: with stride `None`, the resolved stride of both block builders equals
2 exactly when `block = 0` and `stage > 0` and equals 1 otherwise; an
explicitly supplied stride is used unchanged. -/
theorem resolveStride_spec (stage block s : Nat) :
    (resolveStride none stage block = if block = 0 ∧ 0 < stage then 2 else 1) ∧
      resolveStride (some s) stage block = s := by
  constructor
  · show (if block ≠ 0 ∨ stage = 0 then 1 else 2) = if block = 0 ∧ 0 < stage then 2 else 1
    split <;> split <;> omega
  · rfl

/-- C6: block index 0 yields the character `a` for either flag; for every
block index `b ≥ 1` the block character is the `(b+1)`-th lowercase letter
when `numerical_name` is false and the string `b{b}` when it is true. -/
theorem blockChar_spec (b : Nat) (flag : Bool) :
    blockChar 0 flag = [97] ∧
      (1 ≤ b → blockChar b false = [nthLowercaseLetterCode (b + 1)] ∧
        blockChar b true = 98 :: decimalCodes b) := by
  refine ⟨by simp [blockChar], fun hb => ⟨?_, ?_⟩⟩
  · have h : (97 + b) = nthLowercaseLetterCode (b + 1) := by
      unfold nthLowercaseLetterCode
      omega
    unfold blockChar
    rw [if_neg (by simp), h]
  · unfold blockChar
    rw [if_pos ⟨hb, rfl⟩]

/-- C6 witness: evaluation at block index 3. -/
theorem blockChar_spec_witness :
    1 ≤ 3 ∧ blockChar 0 true = [97] ∧ blockChar 3 false = [nthLowercaseLetterCode 4] ∧
      blockChar 3 true = 98 :: decimalCodes 3 :=
  ⟨by decide, (blockChar_spec 3 true).1, ((blockChar_spec 3 true).2 (by decide)).1,
    ((blockChar_spec 3 true).2 (by decide)).2⟩

/-- C3: in both block builders the shortcut is a 1x1 projection convolution
(with the resolved stride) followed by normalization exactly when the block
index is 0 (with `filters * 4` output channels in the bottleneck case); for
every block index greater than 0 the shortcut is the unmodified input. -/
theorem block_shortcut_spec (f s k : Nat) (nn : Bool) (str : Option Nat)
    (act : List Nat) (x : T) :
    (shortcutOf (basic_3d f s 0 k nn str act x).1
        = some (T.app (LayerCfg.mk LKind.complexBatchNorm
              (strCodes "bn" ++ pfxOf s 0 nn ++ strCodes "_branch1") 0 1 0 [])
            (T.app (LayerCfg.mk LKind.complexConv3D
              (strCodes "res" ++ pfxOf s 0 nn ++ strCodes "_branch1") f
              (resolveStride str s 0) 1 []) x))) ∧
    (shortcutOf (bottleneck_3d f s 0 k nn str act x).1
        = some (T.app (LayerCfg.mk LKind.complexBatchNorm
              (strCodes "bn" ++ pfxOf s 0 nn ++ strCodes "_branch1") 0 1 0 [])
            (T.app (LayerCfg.mk LKind.complexConv3D
              (strCodes "res" ++ pfxOf s 0 nn ++ strCodes "_branch1") (f * 4)
              (resolveStride str s 0) 1 []) x))) ∧
    (∀ b, b ≠ 0 → shortcutOf (basic_3d f s b k nn str act x).1 = some x) ∧
    (∀ b, b ≠ 0 → shortcutOf (bottleneck_3d f s b k nn str act x).1 = some x) := by
  refine ⟨rfl, rfl, ?_, ?_⟩ <;>
    (intro b hb; simp [basic_3d, bottleneck_3d, shortcutOf, hb])

/-- C3 witness: evaluation at block index 1 and block index 0. -/
theorem block_shortcut_spec_witness :
    (1 : Nat) ≠ 0 ∧
      shortcutOf (basic_3d 64 0 1 3 false none (strCodes "crelu") T.input).1 = some T.input ∧
      shortcutOf (bottleneck_3d 64 1 1 3 false none (strCodes "crelu") T.input).1
        = some T.input :=
  ⟨by decide,
    (block_shortcut_spec 64 0 3 false none (strCodes "crelu") T.input).2.2.1 1 (by decide),
    (block_shortcut_spec 64 1 3 false none (strCodes "crelu") T.input).2.2.2 1 (by decide)⟩

theorem mem_blocksLoop_calls {bk : BlockKind} {act : List Nat} {f s : Nat} {fl : Bool} :
    ∀ {r b : Nat} {x : T} {c : Nat × Nat × Nat},
      c ∈ (blocksLoop bk act f s fl b r x).calls → c.1 = f ∧ c.2.1 = s := by
  intro r
  induction r with
  | zero => intro b x c h; simp [blocksLoop] at h
  | succ r ih =>
    intro b x c h
    simp only [blocksLoop, List.mem_cons] at h
    rcases h with rfl | h
    · exact ⟨rfl, rfl⟩
    · exact ih h

theorem mem_stagesLoop_calls {bk : BlockKind} {act : List Nat} :
    ∀ {nbs : List Nat} {nns : List Bool} {f s : Nat} {x : T} {c : Nat × Nat × Nat},
      c ∈ (stagesLoop bk act nbs nns f s x).calls →
      ∃ j, c.2.1 = s + j ∧ c.1 = f * 2 ^ j := by
  intro nbs
  induction nbs with
  | nil => intro nns f s x c h; simp [stagesLoop] at h
  | cons iters rest ih =>
    intro nns f s x c h
    simp only [stagesLoop, List.mem_append] at h
    rcases h with h | h
    · obtain ⟨h1, h2⟩ := mem_blocksLoop_calls h
      exact ⟨0, by omega, by simpa using h1⟩
    · obtain ⟨j, h1, h2⟩ := ih h
      refine ⟨j + 1, by omega, ?_⟩
      rw [h2]
      ring

/-- C4: in every successfully assembled network, the filter count passed to
the block builder of stage `s` equals the base filter count times `2 ^ s`. -/
theorem resnet2d_filters_doubling (bk : BlockKind) (nd : Nat) (nbs : List Nat)
    (act : List Nat) (f : Nat) (p0 p1 : List Nat) (top : Bool) (cls : Nat)
    (nns : Option (List Bool)) (oa : Option (List Nat)) (x : T) (r : ModelRes)
    (hok : ResNet2D_build bk nd nbs act f p0 p1 top cls nns oa x = Except.ok r) :
    ∀ c ∈ r.calls, c.1 = f * 2 ^ c.2.1 := by
  unfold ResNet2D_build at hok
  have main : ∀ c ∈ (stagesLoop bk act nbs (nns.getD (List.replicate nbs.length true)) f 0
      (ResNet2D_stem act f p0 x).1).calls, c.1 = f * 2 ^ c.2.1 := by
    intro c hc
    obtain ⟨j, h1, h2⟩ := mem_stagesLoop_calls hc
    rw [h1, h2]
    norm_num
  cases top with
  | false =>
    simp only [Bool.false_eq_true, if_false] at hok
    injection hok with hX
    subst hX
    exact main
  | true =>
    simp only [eq_self_iff_true, if_true] at hok
    by_cases hcls : 0 < cls
    · rw [if_pos hcls] at hok
      injection hok with hX
      subst hX
      exact main
    · rw [if_neg hcls] at hok
      exact Except.noConfusion hok

/-- C4 witness: a three-stage bottleneck configuration. -/
theorem resnet2d_filters_doubling_witness :
    ∃ r, ResNet2D_build BlockKind.bottleneck 4 [2, 2, 2] (strCodes "crelu") 64
        (strCodes "max") (strCodes "global_average") true 5 none none T.input
        = Except.ok r ∧ ∀ c ∈ r.calls, c.1 = 64 * 2 ^ c.2.1 :=
  ⟨_, rfl, resnet2d_filters_doubling BlockKind.bottleneck 4 [2, 2, 2] (strCodes "crelu") 64
      (strCodes "max") (strCodes "global_average") true 5 none none T.input _ rfl⟩

/-- C5 (amended): with `include_top` and `classes = 0` the construction fails
via the `assert classes > 0`, but only after the stem and all residual-stage
layers have been created; no classification-head layer (`pool5` or
`fc{classes}`) exists at the failure point. -/
theorem resnet2d_zero_classes_assert (bk : BlockKind) (nd : Nat) (nbs : List Nat)
    (act : List Nat) (f : Nat) (p0 p1 : List Nat) (nns : Option (List Bool))
    (oa : Option (List Nat)) (x : T) :
    ResNet2D_build bk nd nbs act f p0 p1 true 0 nns oa x
      = Except.error ((ResNet2D_stem act f p0 x).2
          ++ (stagesLoop bk act nbs (nns.getD (List.replicate nbs.length true)) f 0
                (ResNet2D_stem act f p0 x).1).names) ∧
    strCodes "pool5" ∉ ((ResNet2D_stem act f p0 x).2
        ++ (stagesLoop bk act nbs (nns.getD (List.replicate nbs.length true)) f 0
              (ResNet2D_stem act f p0 x).1).names) ∧
    strCodes "fc" ++ decimalCodes 0 ∉ ((ResNet2D_stem act f p0 x).2
        ++ (stagesLoop bk act nbs (nns.getD (List.replicate nbs.length true)) f 0
              (ResNet2D_stem act f p0 x).1).names) := by
  refine ⟨rfl, ?_, ?_⟩
  · intro h
    rw [List.mem_append] at h
    rcases h with h | h
    · exact pool5_not_stem h
    · obtain ⟨s', -, b', hbn⟩ := mem_stagesLoop_names h
      exact pool5_not_block hbn
  · intro h
    rw [List.mem_append] at h
    rcases h with h | h
    · exact fc_not_stem h
    · obtain ⟨s', -, b', hbn⟩ := mem_stagesLoop_names h
      exact fc_not_block hbn

/-- C5 counterexample: with `include_top` and zero classes, the stem
convolution `conv1` (among at least ten layers) has already been created when
the assertion fires, refuting "before any layer of the network is created". -/
theorem resnet2d_zero_classes_counterexample :
    ∃ tr, ResNet2D_build BlockKind.basic 4 [1] (strCodes "crelu") 64 (strCodes "max")
        (strCodes "global_average") true 0 none none T.input = Except.error tr ∧
      strCodes "conv1" ∈ tr ∧ 10 ≤ tr.length :=
  ⟨_, rfl, by decide, by decide⟩

/-- C7: an unrecognized `pooling_func[0]` skips the stem pooling silently: the
stem output is the unpooled activation, no `pool1` layer is created, and
assembly still succeeds for any valid head configuration. -/
theorem resnet2d_unknown_pooling_skip (bk : BlockKind) (nd : Nat) (nbs : List Nat)
    (act : List Nat) (f : Nat) (p0 p1 : List Nat) (cls : Nat)
    (nns : Option (List Bool)) (oa : Option (List Nat)) (x : T)
    (hp0 : p0 ≠ strCodes "max") (hp0' : p0 ≠ strCodes "average") (hcls : 0 < cls) :
    (ResNet2D_stem act f p0 x
        = (T.app (LayerCfg.mk LKind.activationLayer (strCodes "conv1_" ++ act) 0 1 0 act)
            (T.app (LayerCfg.mk LKind.complexBatchNorm (strCodes "bn_conv1") 0 1 0 [])
              (T.app (LayerCfg.mk LKind.complexConv2D (strCodes "conv1") f 2 7 []) x)),
           [strCodes "conv1", strCodes "bn_conv1", strCodes "conv1_" ++ act])) ∧
    (∀ top : Bool, ∃ r, ResNet2D_build bk nd nbs act f p0 p1 top cls nns oa x
        = Except.ok r) := by
  constructor
  · unfold ResNet2D_stem
    rw [if_neg hp0, if_neg hp0']
  · intro top
    cases hE : ResNet2D_build bk nd nbs act f p0 p1 top cls nns oa x with
    | ok r => exact ⟨r, rfl⟩
    | error tr =>
      exfalso
      unfold ResNet2D_build at hE
      cases top with
      | false =>
        simp only [Bool.false_eq_true, if_false] at hE
        exact Except.noConfusion hE
      | true =>
        rw [if_pos rfl, if_pos hcls] at hE
        exact Except.noConfusion hE

/-- C7 witness: pooling tag `foo` (unrecognized) still builds. -/
theorem resnet2d_unknown_pooling_skip_witness :
    ∃ r, ResNet2D_build BlockKind.basic 4 [1] (strCodes "crelu") 64 (strCodes "foo")
        (strCodes "global_average") true 3 none none T.input = Except.ok r :=
  (resnet2d_unknown_pooling_skip BlockKind.basic 4 [1] (strCodes "crelu") 64 (strCodes "foo")
      (strCodes "global_average") 3 none none T.input (by decide) (by decide)
      (by decide)).2 true

/-- C8 (amended): presets 50/101/152/200 hard-code the per-stage
numerical-naming flags (all letters for depth 50; numerical naming on exactly
the two interior stages for 101/152/200) and default to bottleneck blocks,
while presets 18/34 default to basic blocks and forward the caller's
`numerical_names` unchanged (whose `None` default enables numerical naming in
every stage). -/
theorem resnet2d_presets_flags (bk : BlockKind) (nd : Nat) (nb : Option (List Nat))
    (act : List Nat) (f : Nat) (p0 p1 : List Nat) (top : Bool) (cls : Nat)
    (nns : Option (List Bool)) (oa : Option (List Nat)) (x : T) :
    (ResNet2D50_init bk nd nb act f p0 p1 top cls nns oa x
        = ResNet2D_build bk nd (nb.getD [3, 4, 6, 3]) act f p0 p1 top cls
            (some [false, false, false, false]) oa x) ∧
    (ResNet2D101_init bk nd nb act f p0 p1 top cls nns oa x
        = ResNet2D_build bk nd (nb.getD [3, 4, 23, 3]) act f p0 p1 top cls
            (some [false, true, true, false]) oa x) ∧
    (ResNet2D152_init bk nd nb act f p0 p1 top cls nns oa x
        = ResNet2D_build bk nd (nb.getD [3, 8, 36, 3]) act f p0 p1 top cls
            (some [false, true, true, false]) oa x) ∧
    (ResNet2D200_init bk nd nb act f p0 p1 top cls nns oa x
        = ResNet2D_build bk nd (nb.getD [3, 24, 36, 3]) act f p0 p1 top cls
            (some [false, true, true, false]) oa x) ∧
    (ResNet2D18_init bk nd nb act f p0 p1 top cls nns oa x
        = ResNet2D_build bk nd (nb.getD [2, 2, 2, 2]) act f p0 p1 top cls nns oa x) ∧
    (ResNet2D34_init bk nd nb act f p0 p1 top cls nns oa x
        = ResNet2D_build bk nd (nb.getD [3, 4, 6, 3]) act f p0 p1 top cls nns oa x) ∧
    ResNet2D18_default_block = BlockKind.basic ∧
    ResNet2D34_default_block = BlockKind.basic ∧
    ResNet2D50_default_block = BlockKind.bottleneck ∧
    ResNet2D101_default_block = BlockKind.bottleneck ∧
    ResNet2D152_default_block = BlockKind.bottleneck ∧
    ResNet2D200_default_block = BlockKind.bottleneck ∧
    (∀ st : Nat, [false, true, true, false].getD st false = true ↔ st = 1 ∨ st = 2) := by
  refine ⟨rfl, rfl, rfl, rfl, rfl, rfl, rfl, rfl, rfl, rfl, rfl, rfl, ?_⟩
  intro st
  match st with
  | 0 => simp
  | 1 => simp
  | 2 => simp
  | 3 => simp
  | st + 4 =>
    rw [List.getD_eq_default _ _ (by simp)]
    simp

/-- C8 counterexample: preset 18 does not fix the numerical-naming flags; the
caller's value changes the generated layer names (all-false flags give
`res2b*`, the default all-true flags give `res2b1*`). -/
theorem resnet2d18_flags_counterexample :
    ∃ r₁ r₂, ResNet2D18_init BlockKind.basic 4 none (strCodes "crelu") 64 (strCodes "max")
        (strCodes "global_average") false 1000 (some [false, false, false, false]) none
        T.input = Except.ok r₁ ∧
      ResNet2D18_init BlockKind.basic 4 none (strCodes "crelu") 64 (strCodes "max")
        (strCodes "global_average") false 1000 none none T.input = Except.ok r₂ ∧
      r₁.names ≠ r₂.names :=
  ⟨_, _, rfl, rfl, by decide⟩

/-- C9: with the classification head and a positive class count, the model
output is a single dense layer sized to the class count, complex (with the
`complex_` prefix stripped from the activation) iff the resolved output
activation starts with `complex_`; an unspecified output activation resolves
to `softmax`. -/
theorem resnet2d_head_dense (bk : BlockKind) (nd : Nat) (nbs : List Nat) (act : List Nat)
    (f : Nat) (p0 p1 : List Nat) (cls : Nat) (nns : Option (List Bool))
    (oa : Option (List Nat)) (x : T) (r : ModelRes)
    (hcls : 0 < cls)
    (hok : ResNet2D_build bk nd nbs act f p0 p1 true cls nns oa x = Except.ok r) :
    headCfgOf r
        = some (if startsWith (oa.getD (strCodes "softmax")) (strCodes "complex_") then
              LayerCfg.mk LKind.complexDenseLayer (strCodes "fc" ++ decimalCodes cls) cls 1 0
                ((oa.getD (strCodes "softmax")).drop (strCodes "complex_").length)
            else
              LayerCfg.mk LKind.denseLayer (strCodes "fc" ++ decimalCodes cls) cls 1 0
                (oa.getD (strCodes "softmax"))) := by
  unfold ResNet2D_build at hok
  rw [if_pos rfl, if_pos hcls] at hok
  injection hok with hX
  subst hX
  by_cases hsw : startsWith (oa.getD (strCodes "softmax")) (strCodes "complex_") = true
  · simp only [hsw, eq_self_iff_true, if_true]
    rfl
  · simp only [Bool.not_eq_true] at hsw
    simp only [hsw, Bool.false_eq_true, if_false]
    rfl

/-- C9 witness: a `complex_sigmoid` output activation yields the complex dense
head with activation `sigmoid` (= `complex_sigmoid` with the prefix
stripped). -/
theorem resnet2d_head_dense_witness :
    ∃ r, ResNet2D_build BlockKind.basic 4 [1] (strCodes "crelu") 64 (strCodes "max")
        (strCodes "global_average") true 3 none (some (strCodes "complex_sigmoid")) T.input
        = Except.ok r ∧
      headCfgOf r = some (LayerCfg.mk LKind.complexDenseLayer
          (strCodes "fc" ++ decimalCodes 3) 3 1 0 (strCodes "sigmoid")) :=
  ⟨_, rfl, by
    have h := resnet2d_head_dense BlockKind.basic 4 [1] (strCodes "crelu") 64
      (strCodes "max") (strCodes "global_average") 3 none
      (some (strCodes "complex_sigmoid")) T.input _ (by decide) rfl
    rw [h]
    rw [show (if startsWith ((some (strCodes "complex_sigmoid")).getD (strCodes "softmax"))
          (strCodes "complex_") then
        LayerCfg.mk LKind.complexDenseLayer (strCodes "fc" ++ decimalCodes 3) 3 1 0
          (((some (strCodes "complex_sigmoid")).getD (strCodes "softmax")).drop
            (strCodes "complex_").length)
      else
        LayerCfg.mk LKind.denseLayer (strCodes "fc" ++ decimalCodes 3) 3 1 0
          ((some (strCodes "complex_sigmoid")).getD (strCodes "softmax")))
        = LayerCfg.mk LKind.complexDenseLayer (strCodes "fc" ++ decimalCodes 3) 3 1 0
            (strCodes "sigmoid") from by decide]⟩

/-- C10: the four deep presets discard the caller's `numerical_names` and
substitute their own hard-coded flag lists before delegating, so the public
parameter has no effect on them. -/
theorem resnet2d_presets_discard_flags (bk : BlockKind) (nd : Nat) (nb : Option (List Nat))
    (act : List Nat) (f : Nat) (p0 p1 : List Nat) (top : Bool) (cls : Nat)
    (nns nns' : Option (List Bool)) (oa : Option (List Nat)) (x : T) :
    (ResNet2D50_init bk nd nb act f p0 p1 top cls nns oa x
        = ResNet2D50_init bk nd nb act f p0 p1 top cls nns' oa x) ∧
    (ResNet2D101_init bk nd nb act f p0 p1 top cls nns oa x
        = ResNet2D101_init bk nd nb act f p0 p1 top cls nns' oa x) ∧
    (ResNet2D152_init bk nd nb act f p0 p1 top cls nns oa x
        = ResNet2D152_init bk nd nb act f p0 p1 top cls nns' oa x) ∧
    (ResNet2D200_init bk nd nb act f p0 p1 top cls nns oa x
        = ResNet2D200_init bk nd nb act f p0 p1 top cls nns' oa x) ∧
    (ResNet2D50_init bk nd nb act f p0 p1 top cls nns oa x
        = ResNet2D_build bk nd (nb.getD [3, 4, 6, 3]) act f p0 p1 top cls
            (some [false, false, false, false]) oa x) ∧
    (ResNet2D101_init bk nd nb act f p0 p1 top cls nns oa x
        = ResNet2D_build bk nd (nb.getD [3, 4, 23, 3]) act f p0 p1 top cls
            (some [false, true, true, false]) oa x) ∧
    (ResNet2D152_init bk nd nb act f p0 p1 top cls nns oa x
        = ResNet2D_build bk nd (nb.getD [3, 8, 36, 3]) act f p0 p1 top cls
            (some [false, true, true, false]) oa x) ∧
    (ResNet2D200_init bk nd nb act f p0 p1 top cls nns oa x
        = ResNet2D_build bk nd (nb.getD [3, 24, 36, 3]) act f p0 p1 top cls
            (some [false, true, true, false]) oa x) :=
  ⟨rfl, rfl, rfl, rfl, rfl, rfl, rfl, rfl⟩
